import Mathlib

/-
  Verification development for the file-management REST API
  (Express controllers over an S3 object store and a DynamoDB
  single-table metadata store).

  Strings from the TypeScript side are embedded as List Char.
  External collaborator behaviour (DynamoDB conditional writes,
  UpdateItem upsert semantics, S3 HeadObject probes, Node path
  helpers) is modelled from the documented semantics of those
  collaborators, since the repository only calls into them.
-/

namespace FileService

/-- Character class of the sanitization regex [a-zA-Z0-9._-] used by
both sanitizeFileName (file.utils.ts) and S3Service.generateS3Key. -/
def isAllowedChar (c : Char) : Bool :=
  decide (('a' ≤ c ∧ c ≤ 'z') ∨ ('A' ≤ c ∧ c ≤ 'Z') ∨
          ('0' ≤ c ∧ c ≤ '9') ∨ c = '.' ∨ c = '_' ∨ c = '-')

/-- ASCII lowercase map, modelling the effect of the JavaScript
toLowerCase call on the ASCII range used by extensions. -/
def toLowerJs (c : Char) : Char :=
  match c with
  | 'A' => 'a' | 'B' => 'b' | 'C' => 'c' | 'D' => 'd' | 'E' => 'e'
  | 'F' => 'f' | 'G' => 'g' | 'H' => 'h' | 'I' => 'i' | 'J' => 'j'
  | 'K' => 'k' | 'L' => 'l' | 'M' => 'm' | 'N' => 'n' | 'O' => 'o'
  | 'P' => 'p' | 'Q' => 'q' | 'R' => 'r' | 'S' => 's' | 'T' => 't'
  | 'U' => 'u' | 'V' => 'v' | 'W' => 'w' | 'X' => 'x' | 'Y' => 'y'
  | 'Z' => 'z'
  | d => d

/-- Drop trailing path separators, first phase of Node path.basename. -/
def dropTrailingSeps (l : List Char) : List Char :=
  (l.reverse.dropWhile (fun c => decide (c = '/'))).reverse

/-- Keep only the segment after the last path separator, second phase of
Node path.basename. -/
def afterLastSep (l : List Char) : List Char :=
  l.foldl (fun acc c => if c = '/' then [] else acc ++ [c]) []

/-- Node path.basename (posix, no suffix argument): trailing separators
are ignored and the last path segment is returned. -/
def basenameJs (l : List Char) : List Char :=
  afterLastSep (dropTrailingSeps l)

/-- Index of the last dot of the list, if any. -/
def lastDotIdx (l : List Char) : Option Nat :=
  match l.reverse.findIdx? (fun c => decide (c = '.')) with
  | none => none
  | some j => some (l.length - 1 - j)

/-- Node path.extname restricted to separator-free inputs, which is how
sanitizeFileName uses it (it is always applied to a basename): the
suffix from the last dot, except that a leading-dot-only name such as
.bashrc, the name .. and names without dots have no extension. -/
def extnameJs (l : List Char) : List Char :=
  match lastDotIdx l with
  | none => []
  | some i => if i = 0 then [] else if l = ['.', '.'] then [] else l.drop i

/-- The stem kept by sanitizeFileName: path.basename(baseName, ext),
which strips the extension suffix when it is nonempty. -/
def fileStem (fn : List Char) : List Char :=
  let b := basenameJs fn
  let e := extnameJs b
  if e = [] then b else b.take (b.length - e.length)

/-- One character of the replacement regex of sanitizeFileName:
characters outside the allowed class become an underscore. -/
def replaceDisallowed (c : Char) : Char :=
  if isAllowedChar c then c else '_'

/-- The regex replace of runs of two or more underscores by a single
underscore: a run contributes exactly one underscore. -/
def collapseUnderscores : List Char → List Char
  | [] => []
  | [c] => [c]
  | a :: b :: rest =>
      if a = '_' ∧ b = '_' then collapseUnderscores (b :: rest)
      else a :: collapseUnderscores (b :: rest)

/-- The sanitized stem of sanitizeFileName: disallowed characters
replaced by underscores, underscore runs collapsed, truncated to 200. -/
def sanitizedStem (fn : List Char) : List Char :=
  (collapseUnderscores ((fileStem fn).map replaceDisallowed)).take 200

/-- The extension appended by sanitizeFileName: the raw extension of
the basename, lowercased but not otherwise sanitized. -/
def extLowered (fn : List Char) : List Char :=
  (extnameJs (basenameJs fn)).map toLowerJs

/-- sanitizeFileName from file.utils.ts: basename, split into stem and
extension, sanitize the stem, append the lowercased extension. -/
def sanitizeFileName (fn : List Char) : List Char :=
  sanitizedStem fn ++ extLowered fn

theorem isAllowedChar_replaceDisallowed (c : Char) :
    isAllowedChar (replaceDisallowed c) = true := by
  unfold replaceDisallowed
  split
  · assumption
  · decide

theorem mem_collapseUnderscores {l : List Char} {c : Char}
    (h : c ∈ collapseUnderscores l) : c ∈ l := by
  induction l using collapseUnderscores.induct with
  | case1 => simp [collapseUnderscores] at h
  | case2 d => simp [collapseUnderscores] at h; simp [h]
  | case3 a b rest hab ih =>
      rw [collapseUnderscores, if_pos hab] at h
      exact List.mem_cons_of_mem a (ih h)
  | case4 a b rest hab ih =>
      rw [collapseUnderscores, if_neg hab] at h
      rcases List.mem_cons.mp h with h | h
      · simp [h]
      · exact List.mem_cons_of_mem a (ih h)

theorem isAllowedChar_of_mem_sanitizedStem {fn : List Char} {c : Char}
    (h : c ∈ sanitizedStem fn) : isAllowedChar c = true := by
  unfold sanitizedStem at h
  have h1 := mem_collapseUnderscores (List.take_subset _ _ h)
  rcases List.mem_map.mp h1 with ⟨d, _, rfl⟩
  exact isAllowedChar_replaceDisallowed d

theorem not_sep_mem_afterLastSep (l : List Char) : '/' ∉ afterLastSep l := by
  unfold afterLastSep
  suffices h : ∀ acc : List Char, '/' ∉ acc →
      '/' ∉ l.foldl (fun acc c => if c = '/' then [] else acc ++ [c]) acc by
    exact h [] (by simp)
  induction l with
  | nil => intro acc hacc; simpa using hacc
  | cons c cs ih =>
      intro acc hacc
      simp only [List.foldl_cons]
      by_cases hc : c = '/'
      · rw [if_pos hc]; exact ih [] (by simp)
      · rw [if_neg hc]
        refine ih _ ?_
        intro hmem
        rcases List.mem_append.mp hmem with h | h
        · exact hacc h
        · simp at h; exact hc h.symm

theorem not_sep_mem_basenameJs (l : List Char) : '/' ∉ basenameJs l :=
  not_sep_mem_afterLastSep _

theorem toLowerJs_ne_sep {c : Char} (h : c ≠ '/') : toLowerJs c ≠ '/' := by
  unfold toLowerJs
  split <;> first | decide | assumption

theorem extnameJs_subset {l : List Char} {c : Char}
    (h : c ∈ extnameJs l) : c ∈ l := by
  unfold extnameJs at h
  rcases hm : lastDotIdx l with _ | i <;> rw [hm] at h <;> dsimp only at h
  · simp at h
  · by_cases h0 : i = 0
    · rw [if_pos h0] at h; simp at h
    · rw [if_neg h0] at h
      by_cases hdd : l = ['.', '.']
      · rw [if_pos hdd] at h; simp at h
      · rw [if_neg hdd] at h
        exact List.drop_subset _ _ h

/-- C4, counterexample. On the input A.T@T the sanitized output is
A.t@t: the at-sign of the extension survives sanitization, so the
result is not reduced to the class [A-Za-z0-9._-], and the stem keeps
its uppercase A, so the result is not case-lowered. -/
theorem C4_counterexample :
    sanitizeFileName ['A', '.', 'T', '@', 'T'] = ['A', '.', 't', '@', 't'] ∧
    ¬ ((sanitizeFileName ['A', '.', 'T', '@', 'T']).all isAllowedChar = true) ∧
    ¬ ((sanitizeFileName ['A', '.', 'T', '@', 'T']).all
        (fun c => !c.isUpper) = true) := by
  decide

/-- C4, amended. sanitizeFileName splits its input into a stem and an
extension after taking the Node basename. Only the stem is sanitized:
every character of the sanitized stem lies in [A-Za-z0-9._-]. The
extension is preserved, lowercased but not otherwise sanitized, so
characters outside the class can survive inside the extension, and the
case of the stem is kept. Path separators never survive anywhere in the
result. -/
theorem C4_sanitizeFileName (fn : List Char) :
    sanitizeFileName fn =
      sanitizedStem fn ++ (extnameJs (basenameJs fn)).map toLowerJs ∧
    (∀ c ∈ sanitizedStem fn, isAllowedChar c = true) ∧
    '/' ∉ sanitizeFileName fn := by
  refine ⟨rfl, fun c hc => isAllowedChar_of_mem_sanitizedStem hc, ?_⟩
  intro hmem
  rcases List.mem_append.mp hmem with h | h
  · have := isAllowedChar_of_mem_sanitizedStem h
    simp [isAllowedChar] at this
  · rcases List.mem_map.mp h with ⟨d, hd, hlow⟩
    have hdb : d ∈ basenameJs fn := extnameJs_subset hd
    have hdne : d ≠ '/' := fun habs => not_sep_mem_basenameJs fn (habs ▸ hdb)
    exact toLowerJs_ne_sep hdne hlow

/-
  Data model. DynamoDB items are attribute maps, so every attribute of
  a stored item is optional: conditional writes create fully-populated
  items, while UpdateItem on an absent key upserts an item holding only
  the SET attributes. The two entity kinds live under disjoint key
  prefixes (USER#/PROJECT# for projects, PROJECT#/FILE# for files), so
  the single table is modelled as two association lists keyed by the
  respective identifier pairs.
-/

inductive FileStatus where
  | pending
  | uploaded
  | deleted
deriving DecidableEq

inductive ProjectStatus where
  | active
  | archived
  | deleted
deriving DecidableEq

structure FileItem where
  fileId : Option String
  projectId : Option String
  fileName : Option String
  fileType : Option String
  fileExtension : Option String
  fileSize : Option Int
  s3Key : Option String
  uploadedBy : Option String
  uploadedAt : Option String
  status : Option FileStatus
deriving DecidableEq

structure ProjectItem where
  projectId : Option String
  name : Option String
  description : Option String
  ownerId : Option String
  createdAt : Option String
  updatedAt : Option String
  status : Option ProjectStatus
  fileCount : Option Int
  totalSize : Option Int
deriving DecidableEq

structure Db where
  files : List ((String × String) × FileItem)
  projects : List ((String × String) × ProjectItem)
deriving DecidableEq

/-- Whole-system state: the metadata table plus the set of object keys
present in the object store. -/
structure Sys where
  db : Db
  s3 : List String
deriving DecidableEq

/-- Point lookup in an association list, modelling a GetCommand. -/
def dbLookup {α : Type} : List ((String × String) × α) → String × String → Option α
  | [], _ => none
  | (k, v) :: rest, key => if k = key then some v else dbLookup rest key

/-- Write an item at a key, replacing any previous item, modelling an
unconditional PutCommand or the write half of an UpdateCommand. -/
def dbPut {α : Type} : List ((String × String) × α) → String × String → α →
    List ((String × String) × α)
  | [], key, v => [(key, v)]
  | (k, w) :: rest, key, v =>
      if k = key then (key, v) :: rest else (k, w) :: dbPut rest key v

/-- Remove an item, modelling a DeleteCommand. -/
def dbErase {α : Type} (m : List ((String × String) × α)) (key : String × String) :
    List ((String × String) × α) :=
  m.filter (fun p => decide (p.1 ≠ key))

theorem dbLookup_dbPut_same {α : Type} (m : List ((String × String) × α))
    (k : String × String) (v : α) : dbLookup (dbPut m k v) k = some v := by
  induction m with
  | nil => simp [dbPut, dbLookup]
  | cons p rest ih =>
      obtain ⟨pk, pv⟩ := p
      by_cases h : pk = k
      · simp [dbPut, h, dbLookup]
      · simp [dbPut, h, dbLookup, ih]

theorem dbLookup_dbPut_ne {α : Type} (m : List ((String × String) × α))
    (k k2 : String × String) (v : α) (h : k2 ≠ k) :
    dbLookup (dbPut m k v) k2 = dbLookup m k2 := by
  induction m with
  | nil =>
      have hne : ¬ k = k2 := fun hx => h hx.symm
      simp [dbPut, dbLookup, hne]
  | cons p rest ih =>
      obtain ⟨pk, pv⟩ := p
      by_cases hk : pk = k
      · subst hk
        have hne : ¬ pk = k2 := fun hx => h hx.symm
        simp [dbPut, dbLookup, hne]
      · by_cases hk2 : pk = k2
        · simp [dbPut, hk, dbLookup, hk2, h]
        · simp [dbPut, hk, dbLookup, hk2, ih]

theorem dbLookup_dbErase_same {α : Type} (m : List ((String × String) × α))
    (k : String × String) : dbLookup (dbErase m k) k = none := by
  induction m with
  | nil => simp [dbErase, dbLookup]
  | cons p rest ih =>
      obtain ⟨pk, pv⟩ := p
      by_cases h : pk = k
      · simpa [dbErase, h] using ih
      · simpa [dbErase, h, dbLookup] using ih

/-- The fully-populated project item written by
DynamoDBService.createProject: status active, both counters zero, both
timestamps set to the creation instant. -/
def mkProjectItem (now uid pid name : String) (descr : Option String) : ProjectItem :=
  { projectId := some pid, name := some name, description := descr,
    ownerId := some uid, createdAt := some now, updatedAt := some now,
    status := some ProjectStatus.active, fileCount := some 0, totalSize := some 0 }

/-- DynamoDBService.createProject: a conditional put that fails,
leaving the table untouched, when the identity already exists. -/
def dbCreateProject (now uid pid name : String) (descr : Option String)
    (db : Db) : Except Unit (ProjectItem × Db) :=
  match dbLookup db.projects (uid, pid) with
  | some _ => Except.error ()
  | none =>
      let item := mkProjectItem now uid pid name descr
      Except.ok (item, { db with projects := dbPut db.projects (uid, pid) item })

/-- DynamoDBService.updateProject: an UpdateCommand without condition
expression. On an existing item the given fields and updatedAt are
overwritten; on an absent identity DynamoDB UpdateItem upserts a fresh
item carrying only the SET attributes, and ReturnValues ALL_NEW hands
back that item, so the result is never none. -/
def dbUpdateProject (now uid pid : String) (name descr : Option String)
    (status : Option ProjectStatus) (db : Db) : Option ProjectItem × Db :=
  match dbLookup db.projects (uid, pid) with
  | some it =>
      let it2 : ProjectItem :=
        { it with
          updatedAt := some now,
          name := match name with | some n => some n | none => it.name,
          description := match descr with | some d => some d | none => it.description,
          status := match status with | some s => some s | none => it.status }
      (some it2, { db with projects := dbPut db.projects (uid, pid) it2 })
  | none =>
      let it2 : ProjectItem :=
        { projectId := none, name := name, description := descr, ownerId := none,
          createdAt := none, updatedAt := some now, status := status,
          fileCount := none, totalSize := none }
      (some it2, { db with projects := dbPut db.projects (uid, pid) it2 })

/-- DynamoDBService.updateProjectStats: arithmetic SET on the two
counters plus updatedAt. The increment needs both counters present on
an existing item; on an absent item or missing attributes DynamoDB
rejects the update, and an undefined or NaN size delta (a row without
fileSize) is rejected by the client-side marshaller, so all these
surface as errors that leave the table unchanged. -/
def dbUpdateProjectStats (now uid pid : String) (fcDelta : Int)
    (szDelta : Option Int) (db : Db) : Except Unit Db :=
  match szDelta with
  | none => Except.error ()
  | some d =>
      match dbLookup db.projects (uid, pid) with
      | none => Except.error ()
      | some it =>
          match it.fileCount, it.totalSize with
          | some fc, some ts =>
              let it2 : ProjectItem :=
                { it with fileCount := some (fc + fcDelta),
                          totalSize := some (ts + d), updatedAt := some now }
              Except.ok { db with projects := dbPut db.projects (uid, pid) it2 }
          | _, _ => Except.error ()

/-- The item DynamoDB upserts when updateFileStatus hits an absent key:
only the key attributes and the status survive. -/
def upsertStatusFileItem (st : FileStatus) : FileItem :=
  { fileId := none, projectId := none, fileName := none, fileType := none,
    fileExtension := none, fileSize := none, s3Key := none, uploadedBy := none,
    uploadedAt := none, status := some st }

/-- DynamoDBService.updateFileStatus: unconditional SET of the status
attribute, with UpdateItem upsert semantics and ReturnValues ALL_NEW. -/
def dbUpdateFileStatus (pid fid : String) (st : FileStatus) (db : Db) :
    Option FileItem × Db :=
  match dbLookup db.files (pid, fid) with
  | some it =>
      let it2 := { it with status := some st }
      (some it2, { db with files := dbPut db.files (pid, fid) it2 })
  | none =>
      let it2 := upsertStatusFileItem st
      (some it2, { db with files := dbPut db.files (pid, fid) it2 })

/-- DynamoDBService.deleteFile, the soft delete: a status flip. -/
def dbSoftDeleteFile (pid fid : String) (db : Db) : Option FileItem × Db :=
  dbUpdateFileStatus pid fid FileStatus.deleted db

/-- DynamoDBService.hardDeleteFile: physical removal of the row. -/
def dbHardDeleteFile (pid fid : String) (db : Db) : Db :=
  { db with files := dbErase db.files (pid, fid) }

/-- S3Service.objectExists: the HeadObject probe reduced to membership
of the key in the set of stored objects. -/
def s3ObjectExists (s3 : List String) (key : String) : Bool :=
  s3.contains key

/-- S3Service.deleteObject: removal of a key, idempotent. -/
def s3DeleteObject (s3 : List String) (key : String) : List String :=
  s3.filter (fun k => decide (k ≠ key))

/-
  Query layer. A DynamoDB Query walks the key range in ascending sort
  key order starting strictly after the exclusive start key, stops
  after Limit scanned items, and only then applies the filter
  expression; LastEvaluatedKey points at the last scanned item when the
  range was not exhausted. A comparison in a filter expression is false
  when the attribute is absent.
-/

/-- Insert an entry into a list sorted by ascending sort key. -/
def insertByKey {α : Type} (x : (String × String) × α) :
    List ((String × String) × α) → List ((String × String) × α)
  | [] => [x]
  | y :: ys => if x.1.2 < y.1.2 then x :: y :: ys else y :: insertByKey x ys

/-- Arrange a key range in ascending sort key order, as the store
returns it. -/
def sortByKey {α : Type} (l : List ((String × String) × α)) :
    List ((String × String) × α) :=
  l.foldr insertByKey []

/-- The filter expression of getProjectsByUser: the explicit status
equality when a status option is given, otherwise the default filter
status <> deleted. Either comparison is false on a missing attribute. -/
def projectStatusPass (statusFilter : Option ProjectStatus) (it : ProjectItem) : Bool :=
  match statusFilter with
  | some s => decide (it.status = some s)
  | none =>
      match it.status with
      | some st => decide (st ≠ ProjectStatus.deleted)
      | none => false

/-- The filter expression of getFilesByProject: optional fileType
equality conjoined with the status filter or its deleted-excluding
default. -/
def fileFilterPass (ftFilter : Option String) (statusFilter : Option FileStatus)
    (it : FileItem) : Bool :=
  (match ftFilter with
   | some t => decide (it.fileType = some t)
   | none => true) &&
  (match statusFilter with
   | some s => decide (it.status = some s)
   | none =>
       match it.status with
       | some st => decide (st ≠ FileStatus.deleted)
       | none => false)

/-- DynamoDBService.getProjectsByUser: key range PK = USER#uid with
SK prefix PROJECT#, paged by Limit over the scanned items before the
filter runs. -/
def queryProjectsDb (db : Db) (uid : String) (statusFilter : Option ProjectStatus)
    (limit : Option Int) (lastKey : Option String) :
    List ProjectItem × Option String :=
  let rows := sortByKey (db.projects.filter (fun p => decide (p.1.1 = uid)))
  let afterCursor := match lastKey with
    | none => rows
    | some c => rows.filter (fun p => decide (c < p.1.2))
  let scanned := match limit with
    | none => afterCursor
    | some l => afterCursor.take l.toNat
  let items := (scanned.filter (fun p => projectStatusPass statusFilter p.2)).map
    (fun p => p.2)
  let nextKey := match limit with
    | none => none
    | some l =>
        if afterCursor.length ≤ l.toNat then none
        else (afterCursor.take l.toNat).getLast?.map (fun p => p.1.2)
  (items, nextKey)

/-- DynamoDBService.getFilesByProject: key range PK = PROJECT#pid with
SK prefix FILE#, same paging and filtering shape as the projects
query. -/
def queryFilesDb (db : Db) (pid : String) (ftFilter : Option String)
    (statusFilter : Option FileStatus) (limit : Option Int)
    (lastKey : Option String) : List FileItem × Option String :=
  let rows := sortByKey (db.files.filter (fun p => decide (p.1.1 = pid)))
  let afterCursor := match lastKey with
    | none => rows
    | some c => rows.filter (fun p => decide (c < p.1.2))
  let scanned := match limit with
    | none => afterCursor
    | some l => afterCursor.take l.toNat
  let items := (scanned.filter (fun p => fileFilterPass ftFilter statusFilter p.2)).map
    (fun p => p.2)
  let nextKey := match limit with
    | none => none
    | some l =>
        if afterCursor.length ≤ l.toNat then none
        else (afterCursor.take l.toNat).getLast?.map (fun p => p.1.2)
  (items, nextKey)

/-
  Controller layer. The uniform response envelope is either a success
  payload with an HTTP status or an error with code, message and HTTP
  status. Query string parameters arrive as optional strings; an empty
  string is falsy in JavaScript and is treated like an absent
  parameter by the truthiness guards of the controllers.
-/

inductive Resp (α : Type) where
  | success (data : α) (httpStatus : Nat)
  | apiError (code : String) (message : String) (httpStatus : Nat)
deriving DecidableEq

/-- JavaScript whitespace test used by String.prototype.trim, on the
ASCII range. -/
def isJsSpace (c : Char) : Bool :=
  decide (c = ' ' ∨ c = '\t' ∨ c = '\n' ∨ c = '\r')

/-- JavaScript String.prototype.trim. -/
def jsTrim (s : String) : String :=
  String.mk (((s.data.dropWhile isJsSpace).reverse.dropWhile isJsSpace).reverse)

/-- Value of the longest leading digit run, none when there is no
leading digit. -/
def digitsValue (l : List Char) : Option Nat :=
  let ds := l.takeWhile Char.isDigit
  if ds = [] then none
  else some (ds.foldl (fun a c => 10 * a + (c.toNat - 48)) 0)

/-- JavaScript parseInt with radix 10: skip whitespace, optional sign,
longest digit run; none models NaN. -/
def jsParseInt (s : String) : Option Int :=
  match s.data.dropWhile isJsSpace with
  | '-' :: rest => (digitsValue rest).map (fun n => -(n : Int))
  | '+' :: rest => (digitsValue rest).map (fun n => (n : Int))
  | l => (digitsValue l).map (fun n => (n : Int))

/-- The limit option the list controllers hand to the store:
Math.min(parseInt(limit, 10) || 50, 100) guarded by the truthiness of
the raw parameter; an absent or empty parameter yields no limit at
all, and NaN or 0 fall back to 50 before the upper cap. -/
def effectiveLimit (limitParam : Option String) : Option Int :=
  match limitParam with
  | none => none
  | some s =>
      if s = "" then none
      else
        let v : Int := match jsParseInt s with
          | none => 50
          | some n => if n = 0 then 50 else n
        some (min v 100)

/-- The exclusive start key the list controllers hand to the store.
The decode argument abstracts JSON.parse composed with base64 decoding
of the raw cursor; a throw inside the try block is the none case and
is silently discarded by the empty catch. -/
def ctrlLastKey (decode : String → Option String) (p : Option String) :
    Option String :=
  match p with
  | none => none
  | some s => if s = "" then none else decode s

/-- Truthiness guard for plain string query parameters. -/
def nonEmptyParam (p : Option String) : Option String :=
  match p with
  | none => none
  | some s => if s = "" then none else some s

structure ProjectListQuery where
  status : Option ProjectStatus
  limit : Option String
  lastKey : Option String
deriving DecidableEq

structure FileListQuery where
  fileType : Option String
  status : Option FileStatus
  limit : Option String
  lastKey : Option String
deriving DecidableEq

structure ListProjectsOut where
  projects : List ProjectItem
  nextKey : Option String
deriving DecidableEq

structure ListFilesOut where
  files : List FileItem
  nextKey : Option String
deriving DecidableEq

/-- Payload assembled by the listProjects controller. The nextKey
serialization of the store cursor is modelled as the cursor itself. -/
def listProjectsData (decode : String → Option String) (db : Db) (uid : String)
    (q : ProjectListQuery) : ListProjectsOut :=
  let r := queryProjectsDb db uid q.status (effectiveLimit q.limit)
    (ctrlLastKey decode q.lastKey)
  { projects := r.1, nextKey := r.2 }

/-- listProjects controller, GET /projects. -/
def listProjectsCtrl (decode : String → Option String) (db : Db) (uid : String)
    (q : ProjectListQuery) : Resp ListProjectsOut :=
  Resp.success (listProjectsData decode db uid q) 200

/-- Payload assembled by the listFiles controller. -/
def listFilesData (decode : String → Option String) (db : Db) (pid : String)
    (q : FileListQuery) : ListFilesOut :=
  let r := queryFilesDb db pid (nonEmptyParam q.fileType) q.status
    (effectiveLimit q.limit) (ctrlLastKey decode q.lastKey)
  { files := r.1, nextKey := r.2 }

/-- listFiles controller, GET /projects/:projectId/files. -/
def listFilesCtrl (decode : String → Option String) (db : Db) (pid : String)
    (q : FileListQuery) : Resp ListFilesOut :=
  Resp.success (listFilesData decode db pid q) 200

structure CreateProjectOut where
  projectId : Option String
  name : Option String
  description : Option String
  createdAt : Option String
deriving DecidableEq

/-- createProject controller, POST /projects: validate the name, then
attempt the conditional write; a ConditionalCheckFailedException maps
to PROJECT_ALREADY_EXISTS with HTTP 409. The genId argument stands for
the freshly generated uuid. -/
def createProjectCtrl (now genId uid : String) (name : Option String)
    (descr : Option String) (db : Db) : Resp CreateProjectOut × Db :=
  match name with
  | none => (Resp.apiError "VALIDATION_ERROR" "Project name is required" 400, db)
  | some nm =>
      if (jsTrim nm).length = 0 then
        (Resp.apiError "VALIDATION_ERROR" "Project name is required" 400, db)
      else if 100 < nm.length then
        (Resp.apiError "VALIDATION_ERROR"
          "Project name must be 100 characters or less" 400, db)
      else
        match dbCreateProject now uid genId (jsTrim nm) (descr.map jsTrim) db with
        | Except.error _ =>
            (Resp.apiError "PROJECT_ALREADY_EXISTS" "Project already exists" 409, db)
        | Except.ok (item, db2) =>
            let out : CreateProjectOut :=
              { projectId := item.projectId, name := item.name,
                description := item.description, createdAt := item.createdAt }
            (Resp.success out 201, db2)

/-- The empty catch the controllers hang behind updateProjectStats: a
failed counter adjustment is discarded and the state reached before it
is kept. -/
def swallowStats (r : Except Unit Db) (fallback : Db) : Db :=
  match r with
  | Except.ok d => d
  | Except.error _ => fallback

/-- confirmUpload controller, POST .../confirm: look the row up, probe
the object store, flip the status to uploaded, then adjust the project
counters with the failure of that adjustment swallowed by an empty
catch. A row without an s3Key makes the probe call itself throw, which
the outer catch maps to HTTP 500. -/
def confirmUploadCtrl (now uid pid fid : String) (sys : Sys) :
    Resp (Option FileItem) × Sys :=
  match dbLookup sys.db.files (pid, fid) with
  | none => (Resp.apiError "FILE_NOT_FOUND" "File not found" 404, sys)
  | some fm =>
      match fm.s3Key with
      | none => (Resp.apiError "INTERNAL_ERROR" "Failed to confirm upload" 500, sys)
      | some key =>
          if s3ObjectExists sys.s3 key then
            let upd := dbUpdateFileStatus pid fid FileStatus.uploaded sys.db
            let db2 := swallowStats
              (dbUpdateProjectStats now uid pid 1 fm.fileSize upd.2) upd.2
            (Resp.success upd.1 200, { sys with db := db2 })
          else
            (Resp.apiError "VALIDATION_ERROR"
              "File has not been uploaded to storage" 400, sys)

structure DownloadOut where
  fileId : Option String
  fileName : Option String
  downloadUrlKey : String
  expiresIn : Nat
deriving DecidableEq

/-- Configured presigned URL expiry, PRESIGNED_URL_EXPIRY default. -/
def presignedUrlExpiry : Nat := 3600

/-- getDownloadUrl controller, GET /projects/:projectId/files/:fileId:
a soft-deleted row reports not-found; the presigned URL is modelled by
the object key it signs. -/
def getDownloadUrlCtrl (pid fid : String) (sys : Sys) : Resp DownloadOut :=
  match dbLookup sys.db.files (pid, fid) with
  | none => Resp.apiError "FILE_NOT_FOUND" "File not found" 404
  | some fm =>
      if fm.status = some FileStatus.deleted then
        Resp.apiError "FILE_NOT_FOUND" "File has been deleted" 404
      else
        match fm.s3Key with
        | none => Resp.apiError "INTERNAL_ERROR" "Failed to generate download URL" 500
        | some key =>
            let out : DownloadOut :=
              { fileId := fm.fileId, fileName := fm.fileName,
                downloadUrlKey := key, expiresIn := presignedUrlExpiry }
            Resp.success out 200

/-- getFileMetadata controller, GET .../metadata: same visibility rule
as the download path. -/
def getFileMetadataCtrl (pid fid : String) (sys : Sys) : Resp FileItem :=
  match dbLookup sys.db.files (pid, fid) with
  | none => Resp.apiError "FILE_NOT_FOUND" "File not found" 404
  | some fm =>
      if fm.status = some FileStatus.deleted then
        Resp.apiError "FILE_NOT_FOUND" "File has been deleted" 404
      else
        Resp.success fm 200

structure MessageOut where
  message : String
deriving DecidableEq

/-- deleteFile controller, DELETE /projects/:projectId/files/:fileId:
soft delete flips the row status only, hard delete removes the object
and the row; both then adjust the project counters best-effort with
failures swallowed. -/
def deleteFileCtrl (now uid pid fid : String) (hard : Bool) (sys : Sys) :
    Resp MessageOut × Sys :=
  match dbLookup sys.db.files (pid, fid) with
  | none => (Resp.apiError "FILE_NOT_FOUND" "File not found" 404, sys)
  | some fm =>
      if fm.status = some FileStatus.deleted ∧ hard = false then
        (Resp.apiError "FILE_NOT_FOUND" "File already deleted" 404, sys)
      else if hard then
        match fm.s3Key with
        | none => (Resp.apiError "INTERNAL_ERROR" "Failed to delete file" 500, sys)
        | some key =>
            let s3b := s3DeleteObject sys.s3 key
            let db1 := dbHardDeleteFile pid fid sys.db
            let db2 := swallowStats
              (dbUpdateProjectStats now uid pid (-1)
                (fm.fileSize.map (fun z => -z)) db1) db1
            (Resp.success { message := "File permanently deleted" } 200,
              { db := db2, s3 := s3b })
      else
        let upd := dbSoftDeleteFile pid fid sys.db
        let db2 := swallowStats
          (dbUpdateProjectStats now uid pid (-1)
            (fm.fileSize.map (fun z => -z)) upd.2) upd.2
        (Resp.success { message := "File deleted" } 200, { sys with db := db2 })

/-
  Shared lemmas about the store operations, used by several claim
  theorems below.
-/

theorem dbUpdateProjectStats_ok_files (now uid pid : String) (fc : Int)
    (sz : Option Int) (db d : Db)
    (h : dbUpdateProjectStats now uid pid fc sz db = Except.ok d) :
    d.files = db.files := by
  unfold dbUpdateProjectStats at h
  rcases sz with _ | z
  · exact absurd h (by simp)
  · rcases hlk : dbLookup db.projects (uid, pid) with _ | it <;> rw [hlk] at h <;>
      dsimp only at h
    · exact absurd h (by simp)
    · rcases hfc : it.fileCount with _ | fc0 <;> rw [hfc] at h <;>
        rcases hts : it.totalSize with _ | ts0 <;> rw [hts] at h <;>
          dsimp only at h
      · exact absurd h (by simp)
      · exact absurd h (by simp)
      · exact absurd h (by simp)
      · injection h with h2
        rw [← h2]

theorem swallowStats_files (r : Except Unit Db) (db : Db)
    (h : ∀ d, r = Except.ok d → d.files = db.files) :
    (swallowStats r db).files = db.files := by
  cases r with
  | ok d => exact h d rfl
  | error e => rfl

theorem swallowStats_stats_files (now uid pid : String) (fc : Int)
    (sz : Option Int) (db : Db) :
    (swallowStats (dbUpdateProjectStats now uid pid fc sz db) db).files =
      db.files :=
  swallowStats_files _ _ (fun d hd => dbUpdateProjectStats_ok_files _ _ _ _ _ _ _ hd)

theorem swallowStats_error (r : Except Unit Db) (db : Db)
    (h : r = Except.error ()) : swallowStats r db = db := by
  rw [h]; rfl

/-- Concrete states used to exercise the claim theorems. -/
def emptyDb : Db := { files := [], projects := [] }

def sampleProjectItem : ProjectItem := mkProjectItem "T0" "u" "p1" "alpha" none

def sampleFileItem : FileItem :=
  { fileId := some "f1", projectId := some "p", fileName := some "a.txt",
    fileType := some "text/plain", fileExtension := some ".txt",
    fileSize := some 3, s3Key := some "p/f1/a.txt", uploadedBy := some "u",
    uploadedAt := some "T0", status := some FileStatus.pending }

def sampleDb : Db :=
  { files := [(("p", "f1"), sampleFileItem)],
    projects := [(("u", "p1"), sampleProjectItem)] }

/-- C2. A pending file row whose object is absent from storage makes
confirm fail with VALIDATION_ERROR and HTTP 400, and the whole system
state, hence the row with every one of its fields, is unchanged. -/
theorem C2_confirm_missing_object (now uid pid fid key : String) (sys : Sys)
    (fm : FileItem)
    (hlk : dbLookup sys.db.files (pid, fid) = some fm)
    (hst : fm.status = some FileStatus.pending)
    (hkey : fm.s3Key = some key)
    (hex : s3ObjectExists sys.s3 key = false) :
    confirmUploadCtrl now uid pid fid sys =
      (Resp.apiError "VALIDATION_ERROR" "File has not been uploaded to storage" 400,
        sys) ∧
    dbLookup (confirmUploadCtrl now uid pid fid sys).2.db.files (pid, fid) =
      some fm := by
  have hmain : confirmUploadCtrl now uid pid fid sys =
      (Resp.apiError "VALIDATION_ERROR" "File has not been uploaded to storage" 400,
        sys) := by
    unfold confirmUploadCtrl
    rw [hlk]
    dsimp only
    rw [hkey]
    dsimp only
    rw [hex]
    simp
  exact ⟨hmain, by rw [hmain]; exact hlk⟩

/-- The partial item DynamoDB upserts when updateProject is called for
an absent identity with only a name. -/
def upsertedProjectProbe : ProjectItem :=
  { projectId := none, name := some "x", description := none, ownerId := none,
    createdAt := none, updatedAt := some "T1", status := none,
    fileCount := none, totalSize := none }

/-- C6. Evaluation of DynamoDBService.updateProject at an absent
identity: because UpdateItem upserts and ReturnValues ALL_NEW returns
the fresh item, the call yields a partial item instead of null and a
new row does come into existence, against the stated contract; the
updatedAt bump does happen. -/
theorem C6_updateProject_upsert :
    (dbUpdateProject "T1" "u" "p" (some "x") none none emptyDb).1 =
      some upsertedProjectProbe ∧
    (dbUpdateProject "T1" "u" "p" (some "x") none none emptyDb).1 ≠ none ∧
    dbLookup (dbUpdateProject "T1" "u" "p" (some "x") none none emptyDb).2.projects
      ("u", "p") = some upsertedProjectProbe ∧
    upsertedProjectProbe.updatedAt = some "T1" := by
  decide

/-- C1. Once createProject has succeeded for an owner and a generated
identity, a second createProject call with the same identity and a
valid name is rejected by the conditional write and mapped to
PROJECT_ALREADY_EXISTS with HTTP 409, the table is returned untouched,
and the row written by the first call is exactly the created item:
status active, fileCount 0, totalSize 0. -/
theorem C1_create_conflict (now now2 genId uid nm nm2 : String)
    (desc desc2 : Option String) (db db2 : Db) (out : CreateProjectOut)
    (h1 : createProjectCtrl now genId uid (some nm) desc db =
      (Resp.success out 201, db2))
    (hv : ¬ (jsTrim nm2).length = 0) (hl : ¬ 100 < nm2.length) :
    createProjectCtrl now2 genId uid (some nm2) desc2 db2 =
      (Resp.apiError "PROJECT_ALREADY_EXISTS" "Project already exists" 409, db2) ∧
    dbLookup db2.projects (uid, genId) =
      some (mkProjectItem now uid genId (jsTrim nm) (desc.map jsTrim)) ∧
    (mkProjectItem now uid genId (jsTrim nm) (desc.map jsTrim)).status =
      some ProjectStatus.active ∧
    (mkProjectItem now uid genId (jsTrim nm) (desc.map jsTrim)).fileCount =
      some 0 ∧
    (mkProjectItem now uid genId (jsTrim nm) (desc.map jsTrim)).totalSize =
      some 0 := by
  unfold createProjectCtrl at h1
  dsimp only at h1
  by_cases ht : (jsTrim nm).length = 0
  · rw [if_pos ht] at h1
    exact absurd h1 (by simp)
  · rw [if_neg ht] at h1
    by_cases hlen : 100 < nm.length
    · rw [if_pos hlen] at h1
      exact absurd h1 (by simp)
    · rw [if_neg hlen] at h1
      unfold dbCreateProject at h1
      rcases hlk : dbLookup db.projects (uid, genId) with _ | it <;>
        rw [hlk] at h1 <;> dsimp only at h1
      · have hdb2 : dbPut db.projects (uid, genId) (mkProjectItem now uid genId (jsTrim nm) (desc.map jsTrim)) = db2.projects :=
          congrArg (fun p => (Prod.snd p).projects) h1
        have hrow : dbLookup db2.projects (uid, genId) =
            some (mkProjectItem now uid genId (jsTrim nm) (desc.map jsTrim)) := by
          rw [← hdb2]
          exact dbLookup_dbPut_same _ _ _
        refine ⟨?_, hrow, rfl, rfl, rfl⟩
        unfold createProjectCtrl
        dsimp only
        rw [if_neg hv, if_neg hl]
        unfold dbCreateProject
        rw [hrow]
      · exact absurd h1 (by simp)

theorem projectStatusPass_none {it : ProjectItem}
    (h : projectStatusPass none it = true) :
    it.status ≠ some ProjectStatus.deleted := by
  unfold projectStatusPass at h
  rcases hs : it.status with _ | st <;> rw [hs] at h <;> dsimp only at h
  · exact absurd h (by simp)
  · intro habs
    exact (of_decide_eq_true h) (Option.some.inj habs)

theorem fileFilterPass_none {ft : Option String} {it : FileItem}
    (h : fileFilterPass ft none it = true) :
    it.status ≠ some FileStatus.deleted := by
  unfold fileFilterPass at h
  have h2 := ((Bool.and_eq_true _ _).mp h).2
  rcases hs : it.status with _ | st <;> rw [hs] at h2 <;> dsimp only at h2
  · exact absurd h2 (by simp)
  · intro habs
    exact (of_decide_eq_true h2) (Option.some.inj habs)

theorem queryProjectsDb_no_deleted (db : Db) (uid : String) (lim : Option Int)
    (lk : Option String) :
    ∀ r ∈ (queryProjectsDb db uid none lim lk).1,
      r.status ≠ some ProjectStatus.deleted := by
  intro r hr
  unfold queryProjectsDb at hr
  dsimp only at hr
  rcases List.mem_map.mp hr with ⟨p, hp, rfl⟩
  exact projectStatusPass_none (List.mem_filter.mp hp).2

theorem queryFilesDb_no_deleted (db : Db) (pid : String) (ft : Option String)
    (lim : Option Int) (lk : Option String) :
    ∀ r ∈ (queryFilesDb db pid ft none lim lk).1,
      r.status ≠ some FileStatus.deleted := by
  intro r hr
  unfold queryFilesDb at hr
  dsimp only at hr
  rcases List.mem_map.mp hr with ⟨p, hp, rfl⟩
  exact fileFilterPass_none (List.mem_filter.mp hp).2

/-- C3. A listProjects or listFiles call without an explicit status
filter never returns a row whose status is deleted: both query paths
install the default filter status <> deleted, whatever the limit,
cursor and type filter are. -/
theorem C3_no_deleted_in_default_listing (decode : String → Option String)
    (db : Db) (uid pid : String) (ft lim lk limF lkF : Option String) :
    (∀ r ∈ (listProjectsData decode db uid
        { status := none, limit := lim, lastKey := lk }).projects,
      r.status ≠ some ProjectStatus.deleted) ∧
    (∀ r ∈ (listFilesData decode db pid
        { fileType := ft, status := none, limit := limF, lastKey := lkF }).files,
      r.status ≠ some FileStatus.deleted) := by
  constructor
  · intro r hr
    exact queryProjectsDb_no_deleted db uid _ _ r hr
  · intro r hr
    exact queryFilesDb_no_deleted db pid _ _ _ r hr

/-- C5, counterexample. An absent limit parameter makes the controller
pass no limit at all to the store rather than 50, and the value -5,
which parseInt accepts, reaches the store unchanged because only an
upper cap of 100 is applied: the claimed 1 to 100 clamp with default 50
on absence does not hold. -/
theorem C5_counterexample :
    effectiveLimit none = none ∧
    ¬ effectiveLimit none = some 50 ∧
    effectiveLimit (some "-5") = some (-5) ∧
    (-5 : Int) < 1 := by
  decide

/-- C5, amended. When the limit parameter is present and nonempty the
controllers pass min(parseInt(limit, 10) with NaN and 0 replaced by 50,
100) to the store, so the passed limit never exceeds 100 and equals 50
exactly when the value is unparsable; when the parameter is absent or
empty no limit is passed at all, and no lower bound is enforced. The
last conjunct records that effectiveLimit is precisely the limit the
listProjects controller hands to the store query. -/
theorem C5_effectiveLimit (s : String) (n : Int) :
    effectiveLimit none = none ∧
    (∀ t : String, ∀ l : Int, effectiveLimit (some t) = some l → l ≤ 100) ∧
    (s ≠ "" → jsParseInt s = none → effectiveLimit (some s) = some 50) ∧
    (s ≠ "" → jsParseInt s = some n → ¬ n = 0 →
      effectiveLimit (some s) = some (min n 100)) ∧
    (∀ (decode : String → Option String) (db : Db) (uid : String)
        (q : ProjectListQuery),
      listProjectsData decode db uid q =
        { projects := (queryProjectsDb db uid q.status (effectiveLimit q.limit)
            (ctrlLastKey decode q.lastKey)).1,
          nextKey := (queryProjectsDb db uid q.status (effectiveLimit q.limit)
            (ctrlLastKey decode q.lastKey)).2 }) := by
  refine ⟨rfl, ?_, ?_, ?_, ?_⟩
  · intro t l h
    unfold effectiveLimit at h
    dsimp only at h
    by_cases hts : t = ""
    · rw [if_pos hts] at h
      exact absurd h (by simp)
    · rw [if_neg hts] at h
      injection h with h2
      rw [← h2]
      exact min_le_right _ _
  · intro hne hp
    unfold effectiveLimit
    dsimp only
    rw [if_neg hne, hp]
    dsimp only
    decide
  · intro hne hp hn0
    unfold effectiveLimit
    dsimp only
    rw [if_neg hne, hp]
    dsimp only
    rw [if_neg hn0]
  · intro decode db uid q
    rfl

/-- C7. A corrupted pagination cursor, one the decoder rejects, is
silently ignored by both list controllers: the response is identical to
the response of the same request without any cursor, so the request
does not fail because of the cursor. -/
theorem C7_corrupt_cursor_ignored (decode : String → Option String) (db : Db)
    (uid pid : String) (stP : Option ProjectStatus) (ft : Option String)
    (stF : Option FileStatus) (lim limF : Option String) (c : String)
    (h : decode c = none) :
    listProjectsCtrl decode db uid
        { status := stP, limit := lim, lastKey := some c } =
      listProjectsCtrl decode db uid
        { status := stP, limit := lim, lastKey := none } ∧
    listFilesCtrl decode db pid
        { fileType := ft, status := stF, limit := limF, lastKey := some c } =
      listFilesCtrl decode db pid
        { fileType := ft, status := stF, limit := limF, lastKey := none } := by
  have hk : ctrlLastKey decode (some c) = none := by
    unfold ctrlLastKey
    dsimp only
    by_cases hc : c = ""
    · rw [if_pos hc]
    · rw [if_neg hc, h]
  constructor
  · unfold listProjectsCtrl listProjectsData
    dsimp only
    rw [hk]
    rfl
  · unfold listFilesCtrl listFilesData
    dsimp only
    rw [hk]
    rfl

theorem dbUpdateFileStatus_of_lookup (pid fid : String) (st : FileStatus)
    (db : Db) (fm : FileItem) (h : dbLookup db.files (pid, fid) = some fm) :
    (dbUpdateFileStatus pid fid st db).1 = some { fm with status := some st } ∧
    (dbUpdateFileStatus pid fid st db).2.files =
      dbPut db.files (pid, fid) { fm with status := some st } ∧
    (dbUpdateFileStatus pid fid st db).2.projects = db.projects := by
  unfold dbUpdateFileStatus
  rw [h]
  exact ⟨rfl, rfl, rfl⟩

theorem fileItem_deleted_eta {fm : FileItem}
    (h : fm.status = some FileStatus.deleted) :
    ({ fm with status := some FileStatus.deleted } : FileItem) = fm := by
  cases fm
  simp_all

/-- C8. Soft-deleting an existing file row never touches object
storage, leaves the row physically present with only its status
changed to deleted, and afterwards both the download-URL path and the
metadata path answer FILE_NOT_FOUND with HTTP 404 for that file. -/
theorem C8_soft_delete_frame (now uid pid fid : String) (sys : Sys)
    (fm : FileItem) (hlk : dbLookup sys.db.files (pid, fid) = some fm) :
    (deleteFileCtrl now uid pid fid false sys).2.s3 = sys.s3 ∧
    dbLookup (deleteFileCtrl now uid pid fid false sys).2.db.files (pid, fid) =
      some { fm with status := some FileStatus.deleted } ∧
    getDownloadUrlCtrl pid fid (deleteFileCtrl now uid pid fid false sys).2 =
      Resp.apiError "FILE_NOT_FOUND" "File has been deleted" 404 ∧
    getFileMetadataCtrl pid fid (deleteFileCtrl now uid pid fid false sys).2 =
      Resp.apiError "FILE_NOT_FOUND" "File has been deleted" 404 := by
  by_cases hst : fm.status = some FileStatus.deleted
  · have hD : deleteFileCtrl now uid pid fid false sys =
        (Resp.apiError "FILE_NOT_FOUND" "File already deleted" 404, sys) := by
      unfold deleteFileCtrl
      rw [hlk]
      dsimp only
      rw [if_pos (And.intro hst rfl)]
    have hrow : dbLookup sys.db.files (pid, fid) =
        some { fm with status := some FileStatus.deleted } := by
      rw [fileItem_deleted_eta hst]
      exact hlk
    refine ⟨by rw [hD], by rw [hD]; exact hrow, ?_, ?_⟩
    · rw [hD]
      unfold getDownloadUrlCtrl
      rw [hlk]
      dsimp only
      rw [if_pos hst]
    · rw [hD]
      unfold getFileMetadataCtrl
      rw [hlk]
      dsimp only
      rw [if_pos hst]
  · obtain ⟨h1, h2, h3⟩ :=
      dbUpdateFileStatus_of_lookup pid fid FileStatus.deleted sys.db fm hlk
    have hD : deleteFileCtrl now uid pid fid false sys =
        (Resp.success { message := "File deleted" } 200, { sys with db := swallowStats (dbUpdateProjectStats now uid pid (-1) (fm.fileSize.map (fun z => -z)) (dbUpdateFileStatus pid fid FileStatus.deleted sys.db).2) (dbUpdateFileStatus pid fid FileStatus.deleted sys.db).2 }) := by
      unfold deleteFileCtrl
      rw [hlk]
      dsimp only
      rw [if_neg (fun hand => hst hand.1)]
      rw [if_neg Bool.false_ne_true]
      unfold dbSoftDeleteFile
      rfl
    have hfiles : (deleteFileCtrl now uid pid fid false sys).2.db.files =
        dbPut sys.db.files (pid, fid)
          { fm with status := some FileStatus.deleted } := by
      rw [hD]
      dsimp only
      rw [swallowStats_stats_files]
      exact h2
    have hrow : dbLookup (deleteFileCtrl now uid pid fid false sys).2.db.files
        (pid, fid) = some { fm with status := some FileStatus.deleted } := by
      rw [hfiles]
      exact dbLookup_dbPut_same _ _ _
    refine ⟨by rw [hD], hrow, ?_, ?_⟩
    · unfold getDownloadUrlCtrl
      rw [hrow]
      dsimp only
      rw [if_pos rfl]
    · unfold getFileMetadataCtrl
      rw [hrow]
      dsimp only
      rw [if_pos rfl]

/-- C9. When the primary row mutation of confirm, soft delete or hard
delete succeeds and the accompanying counter adjustment fails, the
failure is swallowed: the request still answers success and the final
state is exactly the state after the primary mutation, which is the
same file-row state the request reaches when the adjustment succeeds,
since the adjustment never touches the files table. -/
theorem C9_stats_failure_swallowed (now uid pid fid key : String) (sys : Sys)
    (fm : FileItem)
    (hlk : dbLookup sys.db.files (pid, fid) = some fm)
    (hkey : fm.s3Key = some key) :
    (s3ObjectExists sys.s3 key = true →
      dbUpdateProjectStats now uid pid 1 fm.fileSize (dbUpdateFileStatus pid fid FileStatus.uploaded sys.db).2 = Except.error () →
      confirmUploadCtrl now uid pid fid sys =
        (Resp.success (dbUpdateFileStatus pid fid FileStatus.uploaded sys.db).1 200, { sys with db := (dbUpdateFileStatus pid fid FileStatus.uploaded sys.db).2 })) ∧
    (¬ fm.status = some FileStatus.deleted →
      dbUpdateProjectStats now uid pid (-1) (fm.fileSize.map (fun z => -z)) (dbUpdateFileStatus pid fid FileStatus.deleted sys.db).2 = Except.error () →
      deleteFileCtrl now uid pid fid false sys =
        (Resp.success { message := "File deleted" } 200, { sys with db := (dbUpdateFileStatus pid fid FileStatus.deleted sys.db).2 })) ∧
    (dbUpdateProjectStats now uid pid (-1) (fm.fileSize.map (fun z => -z)) (dbHardDeleteFile pid fid sys.db) = Except.error () →
      deleteFileCtrl now uid pid fid true sys =
        (Resp.success { message := "File permanently deleted" } 200, { db := dbHardDeleteFile pid fid sys.db, s3 := s3DeleteObject sys.s3 key })) := by
  refine ⟨?_, ?_, ?_⟩
  · intro hex hfail
    unfold confirmUploadCtrl
    rw [hlk]
    dsimp only
    rw [hkey]
    dsimp only
    rw [hex]
    rw [if_pos rfl]
    rw [swallowStats_error _ _ hfail]
  · intro hnd hfail
    unfold deleteFileCtrl
    rw [hlk]
    dsimp only
    rw [if_neg (fun hand => hnd hand.1)]
    rw [if_neg Bool.false_ne_true]
    unfold dbSoftDeleteFile
    rw [swallowStats_error _ _ hfail]
  · intro hfail
    unfold deleteFileCtrl
    rw [hlk]
    dsimp only
    rw [if_neg (fun hand => Bool.noConfusion hand.2)]
    rw [if_pos rfl]
    rw [hkey]
    dsimp only
    rw [swallowStats_error _ _ hfail]

/-- C10. confirmUpload places no precondition on the current status of
the row: whenever the row exists and the object is present, the status
is overwritten to uploaded, also for rows already uploaded and for
soft-deleted rows, which are thereby resurrected; and whenever the
project row of the calling user exists with both counters present, the
successful confirm adds one to fileCount and the fileSize of the row
to totalSize, so repeated confirms of the same file keep inflating the
counters. -/
theorem C10_confirm_unconditional (now uid pid fid key : String) (sys : Sys)
    (fm : FileItem)
    (hlk : dbLookup sys.db.files (pid, fid) = some fm)
    (hkey : fm.s3Key = some key)
    (hex : s3ObjectExists sys.s3 key = true) :
    (confirmUploadCtrl now uid pid fid sys).1 =
      Resp.success (some { fm with status := some FileStatus.uploaded }) 200 ∧
    dbLookup (confirmUploadCtrl now uid pid fid sys).2.db.files (pid, fid) =
      some { fm with status := some FileStatus.uploaded } ∧
    (∀ (it : ProjectItem) (fc ts sz : Int),
      dbLookup sys.db.projects (uid, pid) = some it →
      it.fileCount = some fc → it.totalSize = some ts → fm.fileSize = some sz →
      dbLookup (confirmUploadCtrl now uid pid fid sys).2.db.projects (uid, pid) =
        some { it with fileCount := some (fc + 1), totalSize := some (ts + sz), updatedAt := some now }) := by
  obtain ⟨h1, h2, h3⟩ :=
    dbUpdateFileStatus_of_lookup pid fid FileStatus.uploaded sys.db fm hlk
  have hD : confirmUploadCtrl now uid pid fid sys =
      (Resp.success (dbUpdateFileStatus pid fid FileStatus.uploaded sys.db).1 200, { sys with db := swallowStats (dbUpdateProjectStats now uid pid 1 fm.fileSize (dbUpdateFileStatus pid fid FileStatus.uploaded sys.db).2) (dbUpdateFileStatus pid fid FileStatus.uploaded sys.db).2 }) := by
    unfold confirmUploadCtrl
    rw [hlk]
    dsimp only
    rw [hkey]
    dsimp only
    rw [hex]
    rw [if_pos rfl]
  refine ⟨?_, ?_, ?_⟩
  · rw [hD]
    dsimp only
    rw [h1]
  · rw [hD]
    dsimp only
    rw [swallowStats_stats_files, h2]
    exact dbLookup_dbPut_same _ _ _
  · intro it fc ts sz hpj hfc hts2 hsz
    have hpj2 : dbLookup
        (dbUpdateFileStatus pid fid FileStatus.uploaded sys.db).2.projects
        (uid, pid) = some it := by
      rw [h3]
      exact hpj
    rw [hD]
    dsimp only
    unfold dbUpdateProjectStats
    rw [hsz]
    dsimp only
    rw [hpj2]
    dsimp only
    rw [hfc, hts2]
    dsimp only
    unfold swallowStats
    dsimp only
    exact dbLookup_dbPut_same _ _ _

/-
  Closed witnesses exercising each hypothesis-bearing claim theorem at
  a concrete state.
-/

def sampleSys : Sys := { db := sampleDb, s3 := ["p/f1/a.txt"] }

def deletedFileItem : FileItem :=
  { sampleFileItem with status := some FileStatus.deleted }

def resurrectionDb : Db :=
  { files := [(("p", "f1"), deletedFileItem)],
    projects := [(("u", "p"), mkProjectItem "T0" "u" "p" "alpha" none)] }

def resurrectionSys : Sys := { db := resurrectionDb, s3 := ["p/f1/a.txt"] }

/-- Witness for C1 at a concrete pair of create calls. -/
theorem C1_witness :
    createProjectCtrl "T2" "p1" "u1" (some "beta") none { files := [], projects := [(("u1", "p1"), mkProjectItem "T1" "u1" "p1" "alpha" none)] } =
      (Resp.apiError "PROJECT_ALREADY_EXISTS" "Project already exists" 409, { files := [], projects := [(("u1", "p1"), mkProjectItem "T1" "u1" "p1" "alpha" none)] }) ∧
    dbLookup ({ files := [], projects := [(("u1", "p1"), mkProjectItem "T1" "u1" "p1" "alpha" none)] } : Db).projects ("u1", "p1") =
      some (mkProjectItem "T1" "u1" "p1" (jsTrim "alpha") (Option.map jsTrim none)) ∧
    (mkProjectItem "T1" "u1" "p1" (jsTrim "alpha") (Option.map jsTrim none)).status = some ProjectStatus.active ∧
    (mkProjectItem "T1" "u1" "p1" (jsTrim "alpha") (Option.map jsTrim none)).fileCount = some 0 ∧
    (mkProjectItem "T1" "u1" "p1" (jsTrim "alpha") (Option.map jsTrim none)).totalSize = some 0 :=
  C1_create_conflict "T1" "T2" "p1" "u1" "alpha" "beta" none none emptyDb
    { files := [], projects := [(("u1", "p1"), mkProjectItem "T1" "u1" "p1" "alpha" none)] }
    { projectId := some "p1", name := some "alpha", description := none, createdAt := some "T1" }
    (by decide) (by decide) (by decide)

/-- Witness for C2 at a pending row with no stored object. -/
theorem C2_witness :
    confirmUploadCtrl "T1" "u" "p" "f1" { db := sampleDb, s3 := [] } =
      (Resp.apiError "VALIDATION_ERROR" "File has not been uploaded to storage" 400, { db := sampleDb, s3 := [] }) ∧
    dbLookup (confirmUploadCtrl "T1" "u" "p" "f1" { db := sampleDb, s3 := [] }).2.db.files ("p", "f1") =
      some sampleFileItem :=
  C2_confirm_missing_object "T1" "u" "p" "f1" "p/f1/a.txt"
    { db := sampleDb, s3 := [] } sampleFileItem
    (by decide) (by decide) (by decide) (by decide)

/-- Witness for C3 at a concrete listing. -/
theorem C3_witness :
    sampleProjectItem.status ≠ some ProjectStatus.deleted ∧
    sampleFileItem.status ≠ some FileStatus.deleted := by
  constructor
  · exact (C3_no_deleted_in_default_listing (fun _ => none) sampleDb "u" "p"
      none none none none none).1 sampleProjectItem (by decide)
  · exact (C3_no_deleted_in_default_listing (fun _ => none) sampleDb "u" "p"
      none none none none none).2 sampleFileItem (by decide)

/-- Witness for C4 at a concrete filename. -/
theorem C4_witness :
    isAllowedChar 'a' = true ∧ '/' ∉ sanitizeFileName ['a', '@', 'b'] := by
  constructor
  · exact (C4_sanitizeFileName ['a', '@', 'b']).2.1 'a' (by decide)
  · exact (C4_sanitizeFileName ['a', '@', 'b']).2.2

/-- Witness for C5 at concrete limit parameters. -/
theorem C5_witness :
    effectiveLimit (some "abc") = some 50 ∧
    effectiveLimit (some "250") = some 100 ∧
    effectiveLimit (some "7") = some (min (7 : Int) 100) := by
  refine ⟨?_, ?_, ?_⟩
  · exact (C5_effectiveLimit "abc" 0).2.2.1 (by decide) (by decide)
  · have h := (C5_effectiveLimit "250" 250).2.2.2.1 (by decide) (by decide) (by decide)
    rw [h]
    decide
  · exact (C5_effectiveLimit "7" 7).2.2.2.1 (by decide) (by decide) (by decide)

/-- Witness for C7 at a concrete corrupted cursor. -/
theorem C7_witness :
    listProjectsCtrl (fun _ => none) sampleDb "u" { status := none, limit := none, lastKey := some "###" } =
      listProjectsCtrl (fun _ => none) sampleDb "u" { status := none, limit := none, lastKey := none } ∧
    listFilesCtrl (fun _ => none) sampleDb "p" { fileType := none, status := none, limit := none, lastKey := some "###" } =
      listFilesCtrl (fun _ => none) sampleDb "p" { fileType := none, status := none, limit := none, lastKey := none } :=
  C7_corrupt_cursor_ignored (fun _ => none) sampleDb "u" "p" none none none
    none none "###" rfl

/-- Witness for C8 at a concrete soft delete. -/
theorem C8_witness :
    (deleteFileCtrl "T1" "u" "p" "f1" false sampleSys).2.s3 = sampleSys.s3 ∧
    dbLookup (deleteFileCtrl "T1" "u" "p" "f1" false sampleSys).2.db.files ("p", "f1") =
      some { sampleFileItem with status := some FileStatus.deleted } ∧
    getDownloadUrlCtrl "p" "f1" (deleteFileCtrl "T1" "u" "p" "f1" false sampleSys).2 =
      Resp.apiError "FILE_NOT_FOUND" "File has been deleted" 404 ∧
    getFileMetadataCtrl "p" "f1" (deleteFileCtrl "T1" "u" "p" "f1" false sampleSys).2 =
      Resp.apiError "FILE_NOT_FOUND" "File has been deleted" 404 :=
  C8_soft_delete_frame "T1" "u" "p" "f1" sampleSys sampleFileItem (by decide)

/-- Witness for C9 at a confirm whose counter adjustment fails because
the project row of the caller is absent. -/
theorem C9_witness :
    confirmUploadCtrl "T1" "u" "p" "f1" sampleSys =
      (Resp.success (dbUpdateFileStatus "p" "f1" FileStatus.uploaded sampleSys.db).1 200, { sampleSys with db := (dbUpdateFileStatus "p" "f1" FileStatus.uploaded sampleSys.db).2 }) :=
  (C9_stats_failure_swallowed "T1" "u" "p" "f1" "p/f1/a.txt" sampleSys
    sampleFileItem (by decide) (by decide)).1 (by decide) (by rfl)

/-- Witness for C10 at a soft-deleted row that confirm resurrects
while bumping the counters of the owning project. -/
theorem C10_witness :
    (confirmUploadCtrl "T1" "u" "p" "f1" resurrectionSys).1 =
      Resp.success (some { deletedFileItem with status := some FileStatus.uploaded }) 200 ∧
    dbLookup (confirmUploadCtrl "T1" "u" "p" "f1" resurrectionSys).2.db.files ("p", "f1") =
      some { deletedFileItem with status := some FileStatus.uploaded } ∧
    dbLookup (confirmUploadCtrl "T1" "u" "p" "f1" resurrectionSys).2.db.projects ("u", "p") =
      some { mkProjectItem "T0" "u" "p" "alpha" none with fileCount := some (0 + 1), totalSize := some (0 + 3), updatedAt := some "T1" } := by
  obtain ⟨h1, h2, h3⟩ := C10_confirm_unconditional "T1" "u" "p" "f1" "p/f1/a.txt"
    resurrectionSys deletedFileItem (by decide) (by decide) (by decide)
  exact ⟨h1, h2, h3 (mkProjectItem "T0" "u" "p" "alpha" none) 0 0 3
    (by decide) (by decide) (by decide) (by decide)⟩

end FileService
